import Mathlib

/-!
Verification of the voice command dispatch engine of the learning-platform
repository, embedded from `src/app/static/js/voice-assistant.js`.

The embedding translates the JavaScript source into executable Lean
definitions:

* the command table (`initializeCommands`, source lines 55-93) becomes an
  ordered association list, mirroring the insertion order of the object
  literal (which is the order `Object.entries` enumerates string keys);
* `processCommand` (lines 311-330) becomes a total function returning a
  `DispatchResult` that records which tier fired and which action was
  invoked;
* `handleSpeechResult` (lines 274-293) becomes functions from a list of
  recognition results to the concatenated final/interim transcripts and the
  optional text handed to `processCommand`;
* the enable/disable/listening lifecycle (lines 27-49, 205-246) becomes a
  state structure with one function per event handler, each additionally
  reporting whether a capability start/stop request was issued;
* `speak` (lines 342-366) becomes a function on a synthesizer state holding
  the queue of submitted utterances;
* the fetch-backed actions `nextConcept` (lines 381-399) and `showProgress`
  (lines 401-412) become functions from the fetch outcome to the list of
  observable effects (spoken text, fetch requests, navigations), in the
  order the source produces them.

JavaScript specifics are modelled as follows.  `String.prototype.includes`
is substring containment (`strContains`); `toLowerCase`/`trim` are embedded
as `jsToLower`/`jsTrim`, faithful for the ASCII texts involved here;
`Math.round(x)` is `jsRound`, i.e. the floor of `x + 1/2`, matching the JS
definition for all finite arguments; JSON numbers are modelled as exact
rationals.  The exact-match tier `if (this.commands[command])` is modelled
as lookup among the table's own keys: all stored actions are functions and
hence truthy, so for phrases that are not JavaScript `Object.prototype`
property names (no claim involves one) the truthiness test is exactly
own-key membership.
-/

namespace VoiceAssistant

/-- `leadsWith k s` is true when the character list `s` starts with `k`.
Auxiliary for the embedding of `String.prototype.includes`. -/
def leadsWith : List Char → List Char → Bool
  | [], _ => true
  | _ :: _, [] => false
  | a :: k, b :: s => a == b && leadsWith k s

/-- `occursIn k s` is true when `k` occurs as a contiguous sublist of `s`. -/
def occursIn (k : List Char) : List Char → Bool
  | [] => leadsWith k []
  | b :: s => leadsWith k (b :: s) || occursIn k s

/-- Embedding of the JavaScript expression `s.includes(k)`: `k` is a
substring of `s`. -/
def strContains (s k : String) : Bool :=
  occursIn k.data s.data

/-- Embedding of `s.startsWith(k)`. -/
def strStartsWith (s k : String) : Bool :=
  leadsWith k.data s.data

/-- Embedding of `s.toLowerCase()` (faithful on ASCII text). -/
def jsToLower (s : String) : String :=
  ⟨s.data.map Char.toLower⟩

/-- Embedding of `s.trim()`: strip leading and trailing whitespace
(faithful on ASCII whitespace). -/
def jsTrim (s : String) : String :=
  ⟨((s.data.dropWhile Char.isWhitespace).reverse.dropWhile Char.isWhitespace).reverse⟩

/-- Embedding of `Math.round(x)`: the floor of `x + 1/2`, computed on exact
rationals.  `Int.fdiv` is floor division and the denominator of a `Rat` is
positive, so this is the floor of the rational `q + 1/2`. -/
def jsRound (q : ℚ) : ℤ :=
  (q + 1/2).num.fdiv ((q + 1/2).den : ℤ)

/-- The action stored for a command-table key.  Each constructor names the
method (or navigation) the closure at source lines 58-91 invokes. -/
inductive Action where
  | navigate (path : String)
  | startQuickLesson
  | nextConcept
  | showProgress
  | showStats
  | getAIHelp
  | getAIRecommendation
  | getStudyTips
  | zoomGraph (direction : String)
  | resetGraph
  | centerGraph
  | explainConcept (conceptId : String)
  | showHelp
  | showCapabilities
  | disable
deriving DecidableEq

/-- The command table of `initializeCommands` (source lines 55-93), in the
object literal's insertion order. -/
def initializeCommands : List (String × Action) :=
  [("go to dashboard", .navigate "/"),
   ("open dashboard", .navigate "/"),
   ("show graph", .navigate "/graph"),
   ("open graph", .navigate "/graph"),
   ("show leaderboard", .navigate "/leaderboard"),
   ("open leaderboard", .navigate "/leaderboard"),
   ("start learning", .startQuickLesson),
   ("next concept", .nextConcept),
   ("show progress", .showProgress),
   ("my stats", .showStats),
   ("ai help", .getAIHelp),
   ("ai recommendation", .getAIRecommendation),
   ("study tips", .getStudyTips),
   ("zoom in", .zoomGraph "in"),
   ("zoom out", .zoomGraph "out"),
   ("reset graph", .resetGraph),
   ("center graph", .centerGraph),
   ("explain probability", .explainConcept "probability"),
   ("explain statistics", .explainConcept "statistics"),
   ("explain random variables", .explainConcept "random_vars"),
   ("help", .showHelp),
   ("what can you do", .showCapabilities),
   ("stop listening", .disable),
   ("mute", .disable)]

/-- Spoken suggestion of `handleUnknownCommand` when the phrase mentions
"concept" or "learn" (source line 334). -/
def learnHintMsg : String :=
  "I can help you learn! Try saying \"start learning\" or \"next concept\"."

/-- Spoken apology of `handleUnknownCommand` when nothing matched (source
line 338). -/
def notUnderstoodMsg : String :=
  "I didn\x27t understand that command. Say \"help\" to see what I can do."

/-- Outcome of the unknown-command fallback: either a spoken sentence or a
call of `showHelp()`. -/
inductive FallbackResult where
  | speakText (msg : String)
  | invokeHelp
deriving DecidableEq

/-- Embedding of `handleUnknownCommand` (source lines 332-340). -/
def handleUnknownCommand (command : String) : FallbackResult :=
  if strContains command "concept" || strContains command "learn" then
    .speakText learnHintMsg
  else if strContains command "help" then
    .invokeHelp
  else
    .speakText notUnderstoodMsg

/-- Which tier of `processCommand` fired, and with what. -/
inductive DispatchResult where
  | exactHit (key : String) (a : Action)
  | fuzzyHit (key : String) (a : Action)
  | fallbackHit (f : FallbackResult)
deriving DecidableEq

/-- The exact-match tier `if (this.commands[command])` (source line 315):
own-key lookup in the table. -/
def exactMatch (command : String) : Option (String × Action) :=
  initializeCommands.find? (fun e => e.1 == command)

/-- The substring tier (source lines 321-326): the first table entry, in
definition order, whose key is contained in the phrase or contains the
phrase. -/
def fuzzyMatch (command : String) : Option (String × Action) :=
  initializeCommands.find? (fun e => strContains command e.1 || strContains e.1 command)

/-- Embedding of `processCommand` (source lines 311-330): exact tier, then
substring tier, then the unknown-command fallback. -/
def processCommand (command : String) : DispatchResult :=
  match exactMatch command with
  | some e => .exactHit e.1 e.2
  | none =>
    match fuzzyMatch command with
    | some e => .fuzzyHit e.1 e.2
    | none => .fallbackHit (handleUnknownCommand command)

/-- One entry of a recognition result batch: a transcript hypothesis and
its finality flag. -/
structure SpeechResult where
  transcript : String
  isFinal : Bool
deriving DecidableEq

/-- The `finalTranscript` accumulator of `handleSpeechResult` (source lines
275-285): concatenation, in batch order, of the final hypotheses. -/
def finalTranscript (rs : List SpeechResult) : String :=
  rs.foldl (fun acc r => if r.isFinal then acc ++ r.transcript else acc) ""

/-- The `interimTranscript` accumulator of `handleSpeechResult`:
concatenation, in batch order, of the non-final hypotheses. -/
def interimTranscript (rs : List SpeechResult) : String :=
  rs.foldl (fun acc r => if r.isFinal then acc else acc ++ r.transcript) ""

/-- The text shown by `showTranscript` (source line 288):
`interimTranscript || finalTranscript`, i.e. the interim text when it is
non-empty, else the final text. -/
def displayedTranscript (rs : List SpeechResult) : String :=
  if interimTranscript rs ≠ "" then interimTranscript rs else finalTranscript rs

/-- The text `handleSpeechResult` hands to `processCommand` (source lines
290-292): when the concatenated final transcript is non-empty (JavaScript
truthiness of a string), it is dispatched lower-cased and trimmed; interim
text is never dispatched. -/
def dispatchedCommand (rs : List SpeechResult) : Option String :=
  if finalTranscript rs ≠ "" then some (jsTrim (jsToLower (finalTranscript rs))) else none

/-- The final hypotheses of a batch, in order.  Two batches that differ
only in interim hypotheses agree on this projection. -/
def finalTexts (rs : List SpeechResult) : List String :=
  (rs.filter fun r => r.isFinal).map fun r => r.transcript

/-- Concatenation of a list of strings. -/
def strJoin : List String → String
  | [] => ""
  | s :: l => s ++ strJoin l

/-- Session state of the assistant: whether a recognition capability
exists, the user-intent flag `isEnabled`, the capability-observed flag
`isListening`, and whether an `onend` restart timer is currently
scheduled. -/
structure VAState where
  hasRecognition : Bool
  isEnabled : Bool
  isListening : Bool
  restartPending : Bool
deriving DecidableEq

/-- Requests issued to the recognition capability by one event handler. -/
structure StepOut where
  startRequested : Bool
  stopRequested : Bool
deriving DecidableEq

/-- Guard of `startListening` (source lines 232-240): a capability start is
requested only when recognition exists, the assistant is enabled, and it is
not already listening.  The state is unchanged; `isListening` flips only in
the `onstart` callback. -/
def startListening (s : VAState) : Bool :=
  s.hasRecognition && s.isEnabled && !s.isListening

/-- Guard of `stopListening` (source lines 242-246). -/
def stopListening (s : VAState) : Bool :=
  s.hasRecognition && s.isListening

/-- Embedding of `enable` (source lines 218-223): set `isEnabled`, then run
`startListening` on the updated state.  The greeting speech and UI refresh
carry no dispatch-relevant state and are not modelled. -/
def enable (s : VAState) : VAState × StepOut :=
  let s1 := { s with isEnabled := true }
  (s1, ⟨startListening s1, false⟩)

/-- Embedding of `disable` (source lines 225-230): clear `isEnabled`, then
run `stopListening` on the updated state. -/
def disable (s : VAState) : VAState × StepOut :=
  let s1 := { s with isEnabled := false }
  (s1, ⟨false, stopListening s1⟩)

/-- Embedding of the `onstart` callback (source lines 27-31). -/
def onStart (s : VAState) : VAState :=
  { s with isListening := true }

/-- Embedding of the `onend` callback (source lines 33-40): `isListening`
is cleared, and when `isEnabled` still holds a restart of `startListening`
is scheduled after one second (`restartPending`). -/
def onEnd (s : VAState) : VAState :=
  let s1 := { s with isListening := false }
  if s1.isEnabled then { s1 with restartPending := true } else s1

/-- The scheduled restart timer firing: the timer's closure is
`() => this.startListening()`, so it consumes the pending flag and runs
`startListening` against the state *at fire time*. -/
def restartFire (s : VAState) : VAState × StepOut :=
  ({ s with restartPending := false }, ⟨startListening s, false⟩)

/-- A speech-synthesis voice, with the fields the voice-selection heuristic
reads. -/
structure Voice where
  name : String
  lang : String
deriving DecidableEq

/-- An utterance as built by `speak` (source lines 347-362). -/
structure Utterance where
  text : String
  rate : ℚ
  pitch : ℚ
  volume : ℚ
  voice : Option Voice
deriving DecidableEq

/-- State of the speech-synthesis channel: availability, the enumerable
voices, and the queue of submitted utterances. -/
structure SynthState where
  hasSynthesis : Bool
  voices : List Voice
  queue : List Utterance
deriving DecidableEq

/-- `synthesis.cancel()`: drop every queued utterance. -/
def synthCancel (st : SynthState) : SynthState :=
  { st with queue := [] }

/-- `synthesis.speak(u)`: append the utterance to the queue. -/
def synthSubmit (st : SynthState) (u : Utterance) : SynthState :=
  { st with queue := st.queue ++ [u] }

/-- The voice-selection heuristic of `speak` (source lines 353-358). -/
def preferredVoice (voices : List Voice) : Option Voice :=
  voices.find? fun v =>
    strContains v.name "Google" || strContains v.name "Microsoft" ||
      strStartsWith v.lang "en"

/-- Embedding of `speak` (source lines 342-366): when synthesis exists,
cancel any in-flight utterance, then submit the new one with fixed
prosody and the heuristically selected voice. -/
def speak (st : SynthState) (text : String) : SynthState :=
  if st.hasSynthesis then
    synthSubmit (synthCancel st)
      { text := text, rate := 9/10, pitch := 1, volume := 8/10,
        voice := preferredVoice st.voices }
  else st

/-- Outcome of a platform fetch, as consumed by the action bodies. -/
inductive FetchOutcome (α : Type) where
  | ok (data : α)
  | failed
deriving DecidableEq

/-- One element of `{concepts: [{id, name}, ...]}`. -/
structure ConceptRef where
  id : String
  name : String
deriving DecidableEq

/-- Response shape of the adaptive-learning-path endpoint; the `concepts`
field may be absent. -/
structure PathData where
  concepts : Option (List ConceptRef)
deriving DecidableEq

/-- Response shape of the progress endpoint; both fields may be absent and
default to 0 (`data.completed || 0`, `data.percentage || 0`). -/
structure ProgressData where
  completed : Option Nat
  percentage : Option ℚ

/-- Observable effects of an action body, in emission order. -/
inductive Effect where
  | speak (text : String)
  | navigate (path : String)
  | fetchReq (url : String)
deriving DecidableEq

/-- Whether an effect is a navigation. -/
def isNavigate : Effect → Bool
  | .navigate _ => true
  | _ => false

/-- Whether an effect is a fetch request. -/
def isFetchReq : Effect → Bool
  | .fetchReq _ => true
  | _ => false

/-- Embedding of `nextConcept` (source lines 381-399) as a function of the
fetch outcome: announce, issue the single fetch, then either speak and
navigate to the first concept (the navigation is issued after a 2-second
delay in the source), speak the all-done message when `concepts` is absent
or empty, or — on rejection — speak the apology.  No retry is issued: the
effect list contains exactly the one fetch request. -/
def nextConcept (r : FetchOutcome PathData) : List Effect :=
  Effect.speak "Finding your next concept to learn!" ::
  Effect.fetchReq "/api/adaptive-learning-path" ::
  (match r with
   | .ok d =>
     match d.concepts with
     | some (c :: _) =>
       [Effect.speak ("Your next concept is " ++ c.name ++ ". Opening it now!"),
        Effect.navigate ("/course/concept/" ++ c.id)]
     | _ => [Effect.speak "Great job! You\x27ve completed all available concepts."]
   | .failed => [Effect.speak "Sorry, I couldn\x27t find your next concept right now."])

/-- The sentence spoken by `showProgress` on a successful fetch (source
line 406). -/
def progressMessage (d : ProgressData) : String :=
  "You\x27ve completed " ++ toString (d.completed.getD 0) ++
    " concepts with " ++ toString (jsRound (d.percentage.getD 0)) ++
    "% overall progress. Keep up the great work!"

/-- Embedding of `showProgress` (source lines 401-412) as a function of the
fetch outcome. -/
def showProgress (r : FetchOutcome ProgressData) : List Effect :=
  Effect.speak "Let me check your progress!" ::
  Effect.fetchReq "/api/progress" ::
  (match r with
   | .ok d => [Effect.speak (progressMessage d)]
   | .failed => [Effect.speak "Sorry, I couldn\x27t load your progress right now."])

/-- The `finalTranscript` fold, started from any accumulator, appends
exactly the concatenation of the batch's final hypotheses. -/
theorem finalFold_eq (rs : List SpeechResult) : ∀ acc : String,
    rs.foldl (fun acc r => if r.isFinal then acc ++ r.transcript else acc) acc
      = acc ++ strJoin (finalTexts rs) := by
  induction rs with
  | nil =>
    intro acc
    simp [finalTexts, strJoin, String.append_empty]
  | cons r rs ih =>
    intro acc
    cases hf : r.isFinal with
    | true =>
      simp [List.foldl, hf, finalTexts, List.filter_cons, strJoin, ih,
        String.append_assoc]
    | false =>
      simp [List.foldl, hf, finalTexts, List.filter_cons, strJoin, ih]

/-- `finalTranscript` depends only on the ordered final hypotheses. -/
theorem finalTranscript_eq (rs : List SpeechResult) :
    finalTranscript rs = strJoin (finalTexts rs) := by
  have h := finalFold_eq rs ""
  simpa [finalTranscript, String.empty_append] using h

/-- C1 counterexample: the phrase "Help" lower-cases and trims to the table
key "help", yet `processCommand` applied to the raw phrase "Help" does not
invoke that key's action — the case-sensitive lookups all miss and the
fallback apology is spoken instead.  The claim as stated (about
`processCommand (p)` for any `p` normalizing to a key) is therefore false;
normalization must be applied before the call, as `handleSpeechResult`
does. -/
theorem c1_counterexample :
    jsTrim (jsToLower "Help") = "help" ∧
    exactMatch "help" = some ("help", Action.showHelp) ∧
    processCommand "Help" = .fallbackHit (.speakText notUnderstoodMsg) ∧
    processCommand "Help" ≠ .exactHit "help" Action.showHelp := by decide

/-- C1 (amended): for every phrase `p` whose lower-cased, trimmed form is a
key of the command table, `processCommand` applied to that normalized form
(which is what `handleSpeechResult` passes) invokes exactly that key's
action through the exact tier, and no other tier runs. -/
theorem c1_exact_tier (p : String) (e : String × Action)
    (h : exactMatch (jsTrim (jsToLower p)) = some e) :
    processCommand (jsTrim (jsToLower p)) = .exactHit e.1 e.2 ∧
    e.1 = jsTrim (jsToLower p) := by
  constructor
  · simp [processCommand, h]
  · have h2 : initializeCommands.find?
        (fun x => x.1 == jsTrim (jsToLower p)) = some e := h
    simpa using List.find?_some h2

/-- C1 witness: "Show Progress" normalizes to the key "show progress" and
is dispatched to that key's action through the exact tier. -/
theorem c1_witness :
    exactMatch (jsTrim (jsToLower "Show Progress")) =
      some ("show progress", Action.showProgress) ∧
    (processCommand (jsTrim (jsToLower "Show Progress")) =
        .exactHit "show progress" Action.showProgress ∧
      "show progress" = jsTrim (jsToLower "Show Progress")) :=
  ⟨by decide,
   c1_exact_tier "Show Progress" ("show progress", Action.showProgress) (by decide)⟩

/-- C2: a phrase that is no exact key but satisfies the two-way containment
test against some key is dispatched, by the substring tier, to the first
such entry in table definition order (`List.find?` returns the first entry
satisfying the predicate, mirroring the source's in-order scan), and the
matched entry does satisfy containment in one of the two directions. -/
theorem c2_substring_tier (p : String) (e : String × Action)
    (h1 : exactMatch p = none) (h2 : fuzzyMatch p = some e) :
    processCommand p = .fuzzyHit e.1 e.2 ∧
    (strContains p e.1 || strContains e.1 p) = true := by
  refine ⟨by simp [processCommand, h1, h2], ?_⟩
  have h2' : initializeCommands.find?
      (fun x => strContains p x.1 || strContains x.1 p) = some e := h2
  simpa using List.find?_some h2'

/-- C2 witness: the spec's own scenario — "please go to dashboard now" is
no exact key, contains the first key "go to dashboard", and is dispatched
to its navigation action. -/
theorem c2_witness :
    exactMatch "please go to dashboard now" = none ∧
    fuzzyMatch "please go to dashboard now" =
      some ("go to dashboard", Action.navigate "/") ∧
    (processCommand "please go to dashboard now" =
        .fuzzyHit "go to dashboard" (Action.navigate "/") ∧
      (strContains "please go to dashboard now" "go to dashboard" ||
        strContains "go to dashboard" "please go to dashboard now") = true) :=
  ⟨by decide, by decide,
   c2_substring_tier "please go to dashboard now"
     ("go to dashboard", Action.navigate "/") (by decide) (by decide)⟩

/-- C3: a phrase matching neither the exact tier nor the substring tier is
routed to `handleUnknownCommand`, which speaks the learning suggestion when
the phrase contains "concept" or "learn", else invokes the help action when
it contains "help", and otherwise speaks the did-not-understand apology. -/
theorem c3_fallback_tier (p : String)
    (h1 : exactMatch p = none) (h2 : fuzzyMatch p = none) :
    processCommand p = .fallbackHit (handleUnknownCommand p) ∧
    handleUnknownCommand p =
      (if strContains p "concept" || strContains p "learn" then
        FallbackResult.speakText learnHintMsg
      else if strContains p "help" then
        FallbackResult.invokeHelp
      else
        FallbackResult.speakText notUnderstoodMsg) :=
  ⟨by simp [processCommand, h1, h2], rfl⟩

/-- C3 witness: "zzz" matches no tier and receives the apology. -/
theorem c3_witness :
    exactMatch "zzz" = none ∧ fuzzyMatch "zzz" = none ∧
    (processCommand "zzz" = .fallbackHit (handleUnknownCommand "zzz") ∧
      handleUnknownCommand "zzz" =
        (if strContains "zzz" "concept" || strContains "zzz" "learn" then
          FallbackResult.speakText learnHintMsg
        else if strContains "zzz" "help" then
          FallbackResult.invokeHelp
        else
          FallbackResult.speakText notUnderstoodMsg)) :=
  ⟨by decide, by decide, c3_fallback_tier "zzz" (by decide) (by decide)⟩

/-- C4: interim hypotheses never influence dispatch — two result batches
with the same ordered final hypotheses (differing arbitrarily in interim
ones) hand the same text to `processCommand`; by definition of
`dispatchedCommand` that text is the concatenated final transcript,
lower-cased and trimmed. -/
theorem c4_interim_never_dispatched (rs1 rs2 : List SpeechResult)
    (h : finalTexts rs1 = finalTexts rs2) :
    dispatchedCommand rs1 = dispatchedCommand rs2 := by
  unfold dispatchedCommand
  rw [finalTranscript_eq rs1, finalTranscript_eq rs2, h]

/-- C4 witness: two batches with identical final hypotheses but different
interim hypotheses dispatch identically. -/
theorem c4_witness :
    finalTexts [⟨"navigate ", false⟩, ⟨"show progress", true⟩] =
      finalTexts [⟨"zoom", false⟩, ⟨"show progress", true⟩, ⟨"extra", false⟩] ∧
    dispatchedCommand [⟨"navigate ", false⟩, ⟨"show progress", true⟩] =
      dispatchedCommand [⟨"zoom", false⟩, ⟨"show progress", true⟩, ⟨"extra", false⟩] :=
  ⟨by decide,
   c4_interim_never_dispatched
     [⟨"navigate ", false⟩, ⟨"show progress", true⟩]
     [⟨"zoom", false⟩, ⟨"show progress", true⟩, ⟨"extra", false⟩] (by decide)⟩

/-- C5: if the assistant is enabled when a recognition turn ends, a restart
is scheduled; if `disable()` then runs before the timer fires, the firing
timer re-evaluates `startListening`'s guard against the *current* state, so
no capability start is requested and listening stays off. -/
theorem c5_disable_gates_restart (s : VAState) (h : s.isEnabled = true) :
    (onEnd s).restartPending = true ∧
    (restartFire (disable (onEnd s)).1).2.startRequested = false ∧
    (restartFire (disable (onEnd s)).1).1.isListening = false := by
  cases s
  simp_all [onEnd, disable, restartFire, startListening, stopListening]

/-- C5 witness: from an enabled, listening state, end-then-disable-then-fire
requests no restart. -/
theorem c5_witness :
    (onEnd ⟨true, true, true, false⟩).restartPending = true ∧
    (restartFire (disable (onEnd ⟨true, true, true, false⟩)).1).2.startRequested = false ∧
    (restartFire (disable (onEnd ⟨true, true, true, false⟩)).1).1.isListening = false :=
  c5_disable_gates_restart ⟨true, true, true, false⟩ rfl

/-- C6: `speak` cancels any in-flight utterance before submitting the new
one, so after two calls in quick succession only the second utterance's
text remains queued for playback. -/
theorem c6_speak_cancels_previous (st : SynthState) (t1 t2 : String)
    (h : st.hasSynthesis = true) :
    (speak (speak st t1) t2).queue.map Utterance.text = [t2] := by
  simp [speak, synthSubmit, synthCancel, h]

/-- C6 witness: two concrete speak calls leave only the second text. -/
theorem c6_witness :
    (speak (speak ⟨true, [], []⟩ "first") "second").queue.map Utterance.text =
      ["second"] :=
  c6_speak_cancels_previous ⟨true, [], []⟩ "first" "second" rfl

/-- C7: "show progress" hits the exact tier and invokes `showProgress`,
which fetches the progress endpoint; on the response
`{completed: 5, percentage: 62.7}` the spoken sentence is exactly the
specified text, with 62.7 rounded to 63. -/
theorem c7_show_progress_scenario :
    processCommand "show progress" = .exactHit "show progress" Action.showProgress ∧
    showProgress (.ok ⟨some 5, some (627/10)⟩) =
      [Effect.speak "Let me check your progress!",
       Effect.fetchReq "/api/progress",
       Effect.speak "You\x27ve completed 5 concepts with 63% overall progress. Keep up the great work!"] := by
  constructor
  · decide
  · have hr : jsRound ((627 : ℚ)/10) = 63 := by
      norm_num [jsRound]
      decide
    simp [showProgress, progressMessage, hr]
    rfl

/-- C8: when the adaptive-learning-path fetch rejects, `nextConcept` speaks
exactly the specified apology, performs no navigation, and issues exactly
one fetch request (no retry). -/
theorem c8_next_concept_failure :
    nextConcept .failed =
      [Effect.speak "Finding your next concept to learn!",
       Effect.fetchReq "/api/adaptive-learning-path",
       Effect.speak "Sorry, I couldn\x27t find your next concept right now."] ∧
    (nextConcept .failed).filter isNavigate = [] ∧
    (nextConcept .failed).countP isFetchReq = 1 := by decide

/-- C9: a whitespace-only final transcript is truthy, so it is dispatched;
it normalizes to the empty string, which the substring tier matches against
the first table entry (every key contains the empty string), invoking the
dashboard navigation rather than the unknown-command fallback. -/
theorem c9_whitespace_dispatch :
    dispatchedCommand [⟨" ", true⟩] = some "" ∧
    processCommand "" = .fuzzyHit "go to dashboard" (Action.navigate "/") := by decide

/-- C10: the help branch of `handleUnknownCommand` is unreachable through
`processCommand`: any phrase containing "help" is caught by the substring
tier (the key "help" is contained in it), so a phrase reaching the fallback
cannot contain "help" and the fallback result is never the help action. -/
theorem c10_help_branch_unreachable (c : String) (f : FallbackResult)
    (h : processCommand c = .fallbackHit f) :
    strContains c "help" = false ∧ f ≠ FallbackResult.invokeHelp := by
  cases h1 : exactMatch c with
  | some e => simp [processCommand, h1] at h
  | none =>
    cases h2 : fuzzyMatch c with
    | some e => simp [processCommand, h1, h2] at h
    | none =>
      have hf : f = handleUnknownCommand c := by
        have h3 := h
        simp [processCommand, h1, h2] at h3
        exact h3.symm
      have hmem : ("help", Action.showHelp) ∈ initializeCommands := by decide
      have h2' : initializeCommands.find?
          (fun x => strContains c x.1 || strContains x.1 c) = none := h2
      have hpred := List.find?_eq_none.mp h2' _ hmem
      have hno : strContains c "help" = false := by
        simp at hpred
        exact hpred.1
      subst hf
      refine ⟨hno, ?_⟩
      simp [handleUnknownCommand, hno]
      split <;> simp

/-- C10 witness: "banana" reaches the fallback, contains no "help", and
receives the apology rather than the help action. -/
theorem c10_witness :
    strContains "banana" "help" = false ∧
    FallbackResult.speakText notUnderstoodMsg ≠ FallbackResult.invokeHelp :=
  c10_help_branch_unreachable "banana"
    (FallbackResult.speakText notUnderstoodMsg) (by decide)

end VoiceAssistant
